import Mathlib

/-!
Shallow embedding of `src/attributes.rs` (inkwell attribute bindings).

Modelling conventions:
* machine integers (`u32`, `u64`) are `Nat` with explicit bounds where they
  matter (`U32_MAX`);
* a failed `assert!` / `debug_assert!` (a Rust panic) is modelled by the
  function returning `Option.none`;
* the opaque native `LLVMAttributeRef` is a `Nat` address into an explicit
  heap of native attribute objects, address `0` playing the role of the null
  pointer;
* native entry points and the sibling creation module are not under `src/`,
  so they are modelled from the spec (each such definition says so in its
  doc comment).
-/

set_option autoImplicit false

namespace Inkwell

/-- The maximum value of a `u32`, i.e. `u32::max_value()` in the source. -/
def U32_MAX : Nat := 4294967295

/-- An `AttributeLoc` determines where on a function an attribute is
assigned to (from `src/attributes.rs`): the return slot, a 0-indexed
parameter slot (`u32` index), or the function itself. -/
inductive AttributeLoc where
  | Return : AttributeLoc
  | Param (index : Nat) : AttributeLoc
  | Function : AttributeLoc
  deriving DecidableEq

/-- `AttributeLoc::get_index` from `src/attributes.rs`: `Return` maps to 0,
`Param(index)` asserts `index <= u32::max_value() - 2` (the failed assert,
a panic, is `none`) and maps to `index + 1`, `Function` maps to
`u32::max_value()`. -/
def AttributeLoc.get_index : AttributeLoc → Option Nat
  | AttributeLoc.Return => some 0
  | AttributeLoc.Param index =>
      if index ≤ U32_MAX - 2 then some (index + 1) else none
  | AttributeLoc.Function => some U32_MAX

/-- A location is valid when any `Param` index satisfies the documented
bound `index <= u32::max_value() - 2`. -/
def ValidLoc : AttributeLoc → Bool
  | AttributeLoc.Param index => index ≤ U32_MAX - 2
  | _ => true

/-- Modelled from the spec: the native attribute object (it lives in the
native library and is created by the sibling context module, neither under
`src/`) is a closed tagged union of three shapes: Enum (fixed-kind id,
`u64` value), String (key bytes, value bytes — arbitrary bytes, not
necessarily nul-free), Type (fixed-kind id, opaque type handle). -/
inductive NativeAttribute where
  | enumAttr (kindId : Nat) (value : Nat) : NativeAttribute
  | strAttr (key : List Nat) (value : List Nat) : NativeAttribute
  | typeAttr (kindId : Nat) (typeHandle : Nat) : NativeAttribute
  deriving DecidableEq

/-- The native heap: a map from addresses to attribute objects
(`none` = unallocated); address 0 plays the role of the null pointer. -/
def AttrHeap : Type := Nat → Option NativeAttribute

/-- The `Attribute` struct from `src/attributes.rs`: a copyable handle
wrapping one `LLVMAttributeRef` (here: a heap address), with derived
field-wise equality (`#[derive(Clone, Copy, Debug, PartialEq)]`). -/
structure Attribute where
  attributeRef : Nat
  deriving DecidableEq

/-- `Attribute::new` from `src/attributes.rs`: `debug_assert!` that the
pointer is non-null (debug-profile semantics: the failed assertion, a
panic, is `none`), then wrap it. -/
def Attribute.new (r : Nat) : Option Attribute :=
  if r = 0 then none else some { attributeRef := r }

/-- The derived `Clone`/`Copy` of `Attribute`: the handle is copied
field by field; the underlying native object is not touched. -/
def Attribute.clone (a : Attribute) : Attribute :=
  { attributeRef := a.attributeRef }

/-- Modelled from the spec: `LLVMIsEnumAttribute` — the native library's
authoritative classification of the enum shape, as an `LLVMBool`
(1 = yes, 0 = no). -/
def llvmIsEnumAttribute (heap : AttrHeap) (r : Nat) : Nat :=
  match heap r with
  | some (NativeAttribute.enumAttr _ _) => 1
  | _ => 0

/-- Modelled from the spec: `LLVMIsStringAttribute` (`LLVMBool`). -/
def llvmIsStringAttribute (heap : AttrHeap) (r : Nat) : Nat :=
  match heap r with
  | some (NativeAttribute.strAttr _ _) => 1
  | _ => 0

/-- Modelled from the spec: `LLVMIsTypeAttribute` (`LLVMBool`),
present on capable native versions (LLVM >= 12.0). -/
def llvmIsTypeAttribute (heap : AttrHeap) (r : Nat) : Nat :=
  match heap r with
  | some (NativeAttribute.typeAttr _ _) => 1
  | _ => 0

/-- `Attribute::is_enum` from `src/attributes.rs`: the native answer
compared with 1. -/
def Attribute.is_enum (a : Attribute) (heap : AttrHeap) : Bool :=
  llvmIsEnumAttribute heap a.attributeRef == 1

/-- `Attribute::is_string` from `src/attributes.rs`. -/
def Attribute.is_string (a : Attribute) (heap : AttrHeap) : Bool :=
  llvmIsStringAttribute heap a.attributeRef == 1

/-- `Attribute::is_type` from `src/attributes.rs` (capable versions). -/
def Attribute.is_type (a : Attribute) (heap : AttrHeap) : Bool :=
  llvmIsTypeAttribute heap a.attributeRef == 1

/-- Modelled from the spec: `LLVMGetEnumAttributeKindForName` — a pure
lookup in the global builtin-kind table, returning the reserved sentinel 0
when the name is unrecognized. The table is passed explicitly; it maps
builtin names to their fixed-kind ids (all nonzero, 0 being reserved). -/
def llvmGetEnumAttributeKindForName (table : List (String × Nat))
    (name : String) : Nat :=
  match table.find? (fun p => p.1 == name) with
  | some p => p.2
  | none => 0

/-- `Attribute::get_named_enum_kind_id` from `src/attributes.rs`: passes
the name bytes straight to the native lookup. -/
def Attribute.get_named_enum_kind_id (table : List (String × Nat))
    (name : String) : Nat :=
  llvmGetEnumAttributeKindForName table name

/-- Modelled from the spec: `LLVMGetEnumAttributeKind` — the fixed-kind id
stored in an enum or type attribute (on any other input the native value is
unspecified; the wrapper's assert keeps such calls out). -/
def llvmGetEnumAttributeKind (heap : AttrHeap) (r : Nat) : Nat :=
  match heap r with
  | some (NativeAttribute.enumAttr k _) => k
  | some (NativeAttribute.typeAttr k _) => k
  | _ => 0

/-- `Attribute::get_enum_kind_id_is_valid` from `src/attributes.rs`, the
LLVM >= 12.0 variant (the variant under which `get_enum_kind_id` itself is
compiled): enum or type shape. -/
def Attribute.get_enum_kind_id_is_valid (a : Attribute) (heap : AttrHeap) :
    Bool :=
  a.is_enum heap || a.is_type heap

/-- `Attribute::get_enum_kind_id` from `src/attributes.rs`: `assert!` the
shape is valid (the failed assert, a panic, is `none`), then ask the native
library for the kind. -/
def Attribute.get_enum_kind_id (a : Attribute) (heap : AttrHeap) :
    Option Nat :=
  if a.get_enum_kind_id_is_valid heap then
    some (llvmGetEnumAttributeKind heap a.attributeRef)
  else none

/-- Modelled from the spec: `LLVMGetEnumAttributeValue` — the `u64` payload
stored in an enum attribute (unspecified otherwise). -/
def llvmGetEnumAttributeValue (heap : AttrHeap) (r : Nat) : Nat :=
  match heap r with
  | some (NativeAttribute.enumAttr _ v) => v
  | _ => 0

/-- `Attribute::get_enum_value` from `src/attributes.rs`: `assert!
(self.is_enum())`, then the native payload. -/
def Attribute.get_enum_value (a : Attribute) (heap : AttrHeap) :
    Option Nat :=
  if a.is_enum heap then
    some (llvmGetEnumAttributeValue heap a.attributeRef)
  else none

/-- Modelled from the spec: `LLVMGetStringAttributeKind` — a pointer to the
stored key bytes of a string attribute (the buffer holds the stored bytes
followed by a terminating nul). -/
def llvmGetStringAttributeKind (heap : AttrHeap) (r : Nat) : List Nat :=
  match heap r with
  | some (NativeAttribute.strAttr k _) => k
  | _ => []

/-- Modelled from the spec: `LLVMGetStringAttributeValue` — a pointer to
the stored value bytes of a string attribute. -/
def llvmGetStringAttributeValue (heap : AttrHeap) (r : Nat) : List Nat :=
  match heap r with
  | some (NativeAttribute.strAttr _ v) => v
  | _ => []

/-- `CStr::from_ptr` semantics on a buffer holding `bytes` followed by a
terminating nul: the C string read back is the longest nul-free initial
segment of `bytes` (everything from the first nul byte on is cut off). -/
def cStrFromPtr (bytes : List Nat) : List Nat :=
  bytes.takeWhile (fun b => b != 0)

/-- `Attribute::get_string_kind_id` from `src/attributes.rs`: `assert!
(self.is_string())` (failed assert = `none`), then read the native key
pointer back through `CStr::from_ptr`. -/
def Attribute.get_string_kind_id (a : Attribute) (heap : AttrHeap) :
    Option (List Nat) :=
  if a.is_string heap then
    some (cStrFromPtr (llvmGetStringAttributeKind heap a.attributeRef))
  else none

/-- `Attribute::get_string_value` from `src/attributes.rs`: `assert!
(self.is_string())`, then read the native value pointer back through
`CStr::from_ptr`. -/
def Attribute.get_string_value (a : Attribute) (heap : AttrHeap) :
    Option (List Nat) :=
  if a.is_string heap then
    some (cStrFromPtr (llvmGetStringAttributeValue heap a.attributeRef))
  else none

/-- Modelled from the spec: the owning context (sibling module, not under
`src/`), holding the native heap and a fresh-address counter; addresses
handed out are `next + 1`, hence never the null address 0. -/
structure Ctx where
  heap : AttrHeap
  next : Nat

/-- The empty context: nothing allocated yet. -/
def emptyCtx : Ctx :=
  { heap := fun _ => none, next := 0 }

/-- Modelled from the spec: `Context::create_enum_attribute` — allocates a
fresh native enum attribute holding exactly the given kind id and value,
and wraps the new non-null address through `Attribute::new`. -/
def createEnumAttribute (c : Ctx) (kindId value : Nat) :
    Ctx × Option Attribute :=
  ({ heap := fun x =>
       if x = c.next + 1 then some (NativeAttribute.enumAttr kindId value)
       else c.heap x,
     next := c.next + 1 },
   Attribute.new (c.next + 1))

/-- Modelled from the spec: `Context::create_string_attribute` — allocates
a fresh native string attribute storing exactly the given key and value
bytes, and wraps the new non-null address through `Attribute::new`. -/
def createStringAttribute (c : Ctx) (key value : List Nat) :
    Ctx × Option Attribute :=
  ({ heap := fun x =>
       if x = c.next + 1 then some (NativeAttribute.strAttr key value)
       else c.heap x,
     next := c.next + 1 },
   Attribute.new (c.next + 1))

/-- A concrete one-cell heap holding a string attribute at address 1
(used to exercise the wrong-shape contracts). -/
def heapWithStr : AttrHeap := fun x =>
  if x = 1 then some (NativeAttribute.strAttr [107] [118]) else none

/-- A concrete one-cell heap holding an enum attribute at address 1. -/
def heapWithEnum : AttrHeap := fun x =>
  if x = 1 then some (NativeAttribute.enumAttr 0 10) else none

/-- Claim C1: `AttributeLoc::get_index` maps `Return` to 0, `Param(i)` to
`i + 1` for every `i ≤ u32::MAX - 2`, and `Function` to the distinguished
maximum sentinel `u32::MAX`. -/
theorem c1_get_index_encoding :
    AttributeLoc.get_index AttributeLoc.Return = some 0 ∧
    (∀ i : Nat, i ≤ U32_MAX - 2 →
      AttributeLoc.get_index (AttributeLoc.Param i) = some (i + 1)) ∧
    AttributeLoc.get_index AttributeLoc.Function = some U32_MAX := by
  refine ⟨rfl, ?_, rfl⟩
  intro i hi
  simp [AttributeLoc.get_index, hi]

/-- Witness for C1 at the concrete index 7. -/
theorem c1_get_index_encoding_witness :
    AttributeLoc.get_index (AttributeLoc.Param 7) = some 8 :=
  c1_get_index_encoding.2.1 7 (by decide)

/-- Claim C2: encoding `Param(i)` with `i > u32::MAX - 2` is a fatal
precondition failure (modelled as `none`), not a wraparound; in particular
`Param(u32::MAX - 1)` aborts, while `Param(i)` with `i ≤ u32::MAX - 2`
never aborts. -/
theorem c2_param_bound_abort :
    AttributeLoc.get_index (AttributeLoc.Param (U32_MAX - 1)) = none ∧
    (∀ i : Nat, i ≤ U32_MAX → U32_MAX - 2 < i →
      AttributeLoc.get_index (AttributeLoc.Param i) = none) ∧
    (∀ i : Nat, i ≤ U32_MAX - 2 →
      ∃ v : Nat, AttributeLoc.get_index (AttributeLoc.Param i) = some v) := by
  refine ⟨?_, ?_, ?_⟩
  · simp [AttributeLoc.get_index, U32_MAX]
  · intro i _ hgt
    simp only [AttributeLoc.get_index, ite_eq_right_iff]
    intro hle
    omega
  · intro i hi
    exact ⟨i + 1, by simp [AttributeLoc.get_index, hi]⟩

/-- Witness for C2 at the concrete index 5. -/
theorem c2_param_bound_abort_witness :
    ∃ v : Nat, AttributeLoc.get_index (AttributeLoc.Param 5) = some v :=
  c2_param_bound_abort.2.2 5 (by decide)

/-- On an in-bounds index the encoding succeeds with `index + 1`. -/
theorem get_index_param_of_le {i : Nat} (h : i ≤ U32_MAX - 2) :
    AttributeLoc.get_index (AttributeLoc.Param i) = some (i + 1) := by
  simp [AttributeLoc.get_index, h]

/-- Claim C10: the flat-index encoding is injective on valid locations:
`Return`, every in-bounds `Param`, and `Function` occupy pairwise disjoint
indices. -/
theorem c10_get_index_injective :
    ∀ l1 l2 : AttributeLoc, ValidLoc l1 = true → ValidLoc l2 = true →
      AttributeLoc.get_index l1 = AttributeLoc.get_index l2 → l1 = l2 := by
  intro l1 l2 h1 h2 heq
  cases l1 with
  | Return =>
    cases l2 with
    | Return => rfl
    | Param j =>
      simp only [ValidLoc, decide_eq_true_eq] at h2
      rw [get_index_param_of_le h2] at heq
      simp only [AttributeLoc.get_index, Option.some.injEq] at heq
      exact absurd heq (by omega)
    | Function =>
      simp only [AttributeLoc.get_index, Option.some.injEq, U32_MAX] at heq
      exact absurd heq (by omega)
  | Param i =>
    simp only [ValidLoc, decide_eq_true_eq] at h1
    cases l2 with
    | Return =>
      rw [get_index_param_of_le h1] at heq
      simp only [AttributeLoc.get_index, Option.some.injEq] at heq
      exact absurd heq (by omega)
    | Param j =>
      simp only [ValidLoc, decide_eq_true_eq] at h2
      rw [get_index_param_of_le h1, get_index_param_of_le h2] at heq
      simp only [Option.some.injEq] at heq
      simp only [AttributeLoc.Param.injEq]
      omega
    | Function =>
      rw [get_index_param_of_le h1] at heq
      simp only [AttributeLoc.get_index, Option.some.injEq, U32_MAX] at heq
      simp only [U32_MAX] at h1
      exact absurd heq (by omega)
  | Function =>
    cases l2 with
    | Return =>
      simp only [AttributeLoc.get_index, Option.some.injEq, U32_MAX] at heq
      exact absurd heq (by omega)
    | Param j =>
      simp only [ValidLoc, decide_eq_true_eq] at h2
      rw [get_index_param_of_le h2] at heq
      simp only [AttributeLoc.get_index, Option.some.injEq, U32_MAX] at heq
      simp only [U32_MAX] at h2
      exact absurd heq (by omega)
    | Function => rfl

/-- Witness for C10 at two concrete valid locations with equal indices. -/
theorem c10_get_index_injective_witness :
    AttributeLoc.Param 3 = AttributeLoc.Param 3 :=
  c10_get_index_injective (AttributeLoc.Param 3) (AttributeLoc.Param 3)
    (by decide) (by decide) rfl

/-- Helper: a handle produced by `Attribute::new` wraps a non-null
address. -/
theorem new_nonnull {r : Nat} {a : Attribute}
    (h : Attribute.new r = some a) : a.attributeRef ≠ 0 := by
  unfold Attribute.new at h
  by_cases hr : r = 0
  · rw [if_pos hr] at h
    simp at h
  · rw [if_neg hr] at h
    injection h with h2
    subst h2
    exact hr

/-- Helper: the three native shapes are mutually exclusive — a string
attribute is neither enum- nor type-shaped. -/
theorem is_string_not_enum_not_type {heap : AttrHeap} {a : Attribute}
    (h : a.is_string heap = true) :
    a.is_enum heap = false ∧ a.is_type heap = false := by
  unfold Attribute.is_string llvmIsStringAttribute at h
  unfold Attribute.is_enum Attribute.is_type llvmIsEnumAttribute
    llvmIsTypeAttribute
  cases hh : heap a.attributeRef with
  | none => rw [hh] at h; simp at h
  | some na =>
    rw [hh] at h
    cases na <;> simp_all

/-- Helper: `takeWhile (b != 0)` keeps a list untouched when no byte is
nul. -/
theorem takeWhile_ne_zero_eq_self {l : List Nat} (h : ∀ b ∈ l, b ≠ 0) :
    l.takeWhile (fun b => b != 0) = l := by
  induction l with
  | nil => rfl
  | cons x xs ih =>
    have hx : (x != 0) = true := bne_iff_ne.mpr (h x (List.mem_cons_self x xs))
    rw [List.takeWhile_cons, if_pos hx,
      ih (fun b hb => h b (List.mem_cons_of_mem x hb))]

/-- Claim C3 (amended): a string attribute constructed with key K and
value V is classified as a string, and the read-back key and value are the
longest nul-free initial segments of K and V (`CStr::from_ptr` cuts at the
first nul byte); in particular they equal K and V byte-for-byte exactly
when K and V are nul-free. -/
theorem c3_string_roundtrip :
    ∀ (c : Ctx) (key value : List Nat),
      (createStringAttribute c key value).2 =
        some { attributeRef := c.next + 1 } ∧
      Attribute.is_string { attributeRef := c.next + 1 }
        (createStringAttribute c key value).1.heap = true ∧
      Attribute.get_string_kind_id { attributeRef := c.next + 1 }
        (createStringAttribute c key value).1.heap =
        some (key.takeWhile (fun b => b != 0)) ∧
      Attribute.get_string_value { attributeRef := c.next + 1 }
        (createStringAttribute c key value).1.heap =
        some (value.takeWhile (fun b => b != 0)) ∧
      ((∀ b ∈ key, b ≠ 0) →
        Attribute.get_string_kind_id { attributeRef := c.next + 1 }
          (createStringAttribute c key value).1.heap = some key) ∧
      ((∀ b ∈ value, b ≠ 0) →
        Attribute.get_string_value { attributeRef := c.next + 1 }
          (createStringAttribute c key value).1.heap = some value) := by
  intro c key value
  have hkind : Attribute.get_string_kind_id { attributeRef := c.next + 1 }
      (createStringAttribute c key value).1.heap =
      some (key.takeWhile (fun b => b != 0)) := by
    simp [createStringAttribute, Attribute.get_string_kind_id,
      Attribute.is_string, llvmIsStringAttribute,
      llvmGetStringAttributeKind, cStrFromPtr]
  have hval : Attribute.get_string_value { attributeRef := c.next + 1 }
      (createStringAttribute c key value).1.heap =
      some (value.takeWhile (fun b => b != 0)) := by
    simp [createStringAttribute, Attribute.get_string_value,
      Attribute.is_string, llvmIsStringAttribute,
      llvmGetStringAttributeValue, cStrFromPtr]
  refine ⟨?_, ?_, hkind, hval, ?_, ?_⟩
  · simp [createStringAttribute, Attribute.new]
  · simp [createStringAttribute, Attribute.is_string, llvmIsStringAttribute]
  · intro h
    rw [hkind, takeWhile_ne_zero_eq_self h]
  · intro h
    rw [hval, takeWhile_ne_zero_eq_self h]

/-- Witness for C3 (amended) at a concrete nul-free key. -/
theorem c3_string_roundtrip_witness :
    (∀ b ∈ ([107] : List Nat), b ≠ 0) ∧
    Attribute.get_string_kind_id { attributeRef := 1 }
      (createStringAttribute emptyCtx [107] [118]).1.heap = some [107] :=
  ⟨by decide, (c3_string_roundtrip emptyCtx [107] [118]).2.2.2.2.1 (by decide)⟩

/-- Counterexample to claim C3 as stated: a string attribute constructed
with value bytes holding an interior nul (here `[65, 0, 66]`) comes back
truncated at the first nul (`[65]`), not byte-for-byte. -/
theorem c3_counterexample :
    (createStringAttribute emptyCtx [107] [65, 0, 66]).2 =
      some { attributeRef := 1 } ∧
    Attribute.get_string_value { attributeRef := 1 }
      (createStringAttribute emptyCtx [107] [65, 0, 66]).1.heap =
      some [65] ∧
    some ([65] : List Nat) ≠ some ([65, 0, 66] : List Nat) := by
  refine ⟨rfl, rfl, by decide⟩

/-- Claim C4: `get_enum_kind_id` returns a kind when the attribute is
enum- or type-shaped, and aborts (`none`) when neither predicate holds —
in particular on a string attribute. -/
theorem c4_get_enum_kind_id_contract :
    ∀ (heap : AttrHeap) (a : Attribute),
      ((a.is_enum heap = true ∨ a.is_type heap = true) →
        ∃ k : Nat, a.get_enum_kind_id heap = some k) ∧
      (a.is_enum heap = false → a.is_type heap = false →
        a.get_enum_kind_id heap = none) ∧
      (a.is_string heap = true → a.get_enum_kind_id heap = none) := by
  intro heap a
  refine ⟨?_, ?_, ?_⟩
  · intro h
    refine ⟨llvmGetEnumAttributeKind heap a.attributeRef, ?_⟩
    unfold Attribute.get_enum_kind_id Attribute.get_enum_kind_id_is_valid
    rcases h with h | h <;> simp [h]
  · intro h1 h2
    unfold Attribute.get_enum_kind_id Attribute.get_enum_kind_id_is_valid
    simp [h1, h2]
  · intro hs
    obtain ⟨h1, h2⟩ := is_string_not_enum_not_type hs
    unfold Attribute.get_enum_kind_id Attribute.get_enum_kind_id_is_valid
    simp [h1, h2]

/-- Witness for C4: on a concrete string attribute the kind accessor
aborts. -/
theorem c4_get_enum_kind_id_contract_witness :
    Attribute.is_string { attributeRef := 1 } heapWithStr = true ∧
    Attribute.get_enum_kind_id { attributeRef := 1 } heapWithStr = none :=
  ⟨by decide,
   (c4_get_enum_kind_id_contract heapWithStr { attributeRef := 1 }).2.2
     (by decide)⟩

/-- Claim C5: each value accessor aborts (`none`) exactly when its
classification predicate fails, and succeeds when it holds. -/
theorem c5_wrong_shape_accessor_contract :
    ∀ (heap : AttrHeap) (a : Attribute),
      (a.is_enum heap = false → a.get_enum_value heap = none) ∧
      (a.is_enum heap = true → ∃ v : Nat, a.get_enum_value heap = some v) ∧
      (a.is_string heap = false →
        a.get_string_kind_id heap = none ∧
        a.get_string_value heap = none) ∧
      (a.is_string heap = true →
        (∃ k : List Nat, a.get_string_kind_id heap = some k) ∧
        (∃ v : List Nat, a.get_string_value heap = some v)) := by
  intro heap a
  refine ⟨?_, ?_, ?_, ?_⟩ <;> intro h <;>
    simp [Attribute.get_enum_value, Attribute.get_string_kind_id,
      Attribute.get_string_value, h]

/-- Witness for C5: on a concrete enum attribute `get_enum_value`
succeeds, and on the same attribute the string accessors abort. -/
theorem c5_wrong_shape_accessor_contract_witness :
    Attribute.is_enum { attributeRef := 1 } heapWithEnum = true ∧
    (∃ v : Nat,
      Attribute.get_enum_value { attributeRef := 1 } heapWithEnum =
        some v) ∧
    Attribute.get_string_kind_id { attributeRef := 1 } heapWithEnum =
      none ∧
    Attribute.get_string_value { attributeRef := 1 } heapWithEnum = none :=
  ⟨by decide,
   (c5_wrong_shape_accessor_contract heapWithEnum
     { attributeRef := 1 }).2.1 (by decide),
   (c5_wrong_shape_accessor_contract heapWithEnum
     { attributeRef := 1 }).2.2.1 (by decide)⟩

/-- Claim C6: the builtin-name lookup is total (always yields an integer),
is a pure function of the table and the name alone, and returns the
reserved sentinel 0 on an unrecognized name. -/
theorem c6_lookup_sentinel :
    ∀ (table : List (String × Nat)) (name : String),
      (∃ k : Nat, Attribute.get_named_enum_kind_id table name = k) ∧
      ((∀ p ∈ table, p.1 ≠ name) →
        Attribute.get_named_enum_kind_id table name = 0) := by
  intro table name
  refine ⟨⟨_, rfl⟩, ?_⟩
  intro h
  unfold Attribute.get_named_enum_kind_id llvmGetEnumAttributeKindForName
  have hnone : table.find? (fun p => p.1 == name) = none := by
    rw [List.find?_eq_none]
    intro p hp
    simp only [beq_iff_eq]
    exact h p hp
  rw [hnone]

/-- Witness for C6 at a concrete table and an unrecognized name. -/
theorem c6_lookup_sentinel_witness :
    (∀ p ∈ ([("align", 1), ("builtin", 5)] : List (String × Nat)),
      p.1 ≠ "foobar") ∧
    Attribute.get_named_enum_kind_id
      [("align", 1), ("builtin", 5)] "foobar" = 0 :=
  ⟨by decide,
   (c6_lookup_sentinel [("align", 1), ("builtin", 5)] "foobar").2
     (by decide)⟩

/-- Claim C7: construction from the null address is a checked fatal error,
every handle `Attribute::new` or a creation function yields wraps a
non-null address, and copying preserves the wrapped address. -/
theorem c7_nonnull_invariant :
    Attribute.new 0 = none ∧
    (∀ (r : Nat) (a : Attribute),
      Attribute.new r = some a → a.attributeRef ≠ 0) ∧
    (∀ (c : Ctx) (k v : Nat) (a : Attribute),
      (createEnumAttribute c k v).2 = some a → a.attributeRef ≠ 0) ∧
    (∀ (c : Ctx) (key value : List Nat) (a : Attribute),
      (createStringAttribute c key value).2 = some a →
        a.attributeRef ≠ 0) ∧
    (∀ a : Attribute, a.clone.attributeRef = a.attributeRef) := by
  refine ⟨rfl, ?_, ?_, ?_, fun a => rfl⟩
  · intro r a h
    exact new_nonnull h
  · intro c k v a h
    have h2 : Attribute.new (c.next + 1) = some a := h
    exact new_nonnull h2
  · intro c key value a h
    have h2 : Attribute.new (c.next + 1) = some a := h
    exact new_nonnull h2

/-- Witness for C7 at the concrete address 5. -/
theorem c7_nonnull_invariant_witness :
    Attribute.new 5 = some { attributeRef := 5 } ∧
    ({ attributeRef := 5 } : Attribute).attributeRef ≠ 0 :=
  ⟨rfl, c7_nonnull_invariant.2.1 5 { attributeRef := 5 } rfl⟩

/-- Claim C8: an enum attribute constructed with a given kind id and value
is classified as enum (and not string, not type), and `get_enum_value`
returns exactly the constructing value. -/
theorem c8_enum_roundtrip :
    ∀ (c : Ctx) (kindId value : Nat),
      (createEnumAttribute c kindId value).2 =
        some { attributeRef := c.next + 1 } ∧
      Attribute.is_enum { attributeRef := c.next + 1 }
        (createEnumAttribute c kindId value).1.heap = true ∧
      Attribute.is_string { attributeRef := c.next + 1 }
        (createEnumAttribute c kindId value).1.heap = false ∧
      Attribute.is_type { attributeRef := c.next + 1 }
        (createEnumAttribute c kindId value).1.heap = false ∧
      Attribute.get_enum_value { attributeRef := c.next + 1 }
        (createEnumAttribute c kindId value).1.heap = some value := by
  intro c kindId value
  refine ⟨?_, ?_, ?_, ?_, ?_⟩ <;>
    simp [createEnumAttribute, Attribute.new, Attribute.is_enum,
      Attribute.is_string, Attribute.is_type, Attribute.get_enum_value,
      llvmIsEnumAttribute, llvmIsStringAttribute, llvmIsTypeAttribute,
      llvmGetEnumAttributeValue]

/-- Claim C9: handle equality is reference identity of the wrapped native
reference, and copying a handle duplicates only the reference, the copy
being equal to the original. -/
theorem c9_eq_ref_identity_copy :
    (∀ a b : Attribute, (a == b) = true ↔ a.attributeRef = b.attributeRef) ∧
    (∀ a : Attribute, a.clone = a) ∧
    (∀ a : Attribute, (a.clone == a) = true) := by
  refine ⟨?_, ?_, ?_⟩
  · intro a b
    cases a
    cases b
    simp [beq_iff_eq, Attribute.mk.injEq]
  · intro a
    cases a
    rfl
  · intro a
    cases a
    simp [Attribute.clone, beq_iff_eq]

end Inkwell
